import Mathlib

/-!
Verification of the tree_cli repository: a shallow embedding of the two
directory-tree generators (`src/generate_tree.py` and
`src/app/tree_cli/generate_tree.py`), the ignore-pattern loader
(`src/utils.py`) and the code combiner (`src/combine_code.py`), together
with theorems settling the specification claims.

Filesystem state is modelled as a pure tree; the compiled gitignore spec
(the third-party `pathspec` library) is abstracted as a predicate on
root-relative path strings, which is shared by every component exactly as
the single compiled `PathSpec` object is shared in the source.
-/

namespace TreeCli

/-- Python exception classes observed by the embedded code. -/
inductive PyErr where
  | attributeError
  | nameError
  | typeError
  | osError
deriving DecidableEq, Repr

/-- A filesystem entry: a file with text content, or a directory with an
ordered child list.  The `listable` flag models whether `iterdir`
(or `os.walk`) can list the directory, i.e. whether listing raises an
`OSError`. -/
inductive FSEntry where
  | file (name : String) (content : String)
  | dir (name : String) (listable : Bool) (children : List FSEntry)

/-- Python `entry.name` (pathlib basename). -/
def FSEntry.name : FSEntry → String
  | .file n _ => n
  | .dir n _ _ => n

/-- Python `entry.is_dir()`. -/
def FSEntry.isDir : FSEntry → Bool
  | .file _ _ => false
  | .dir _ _ _ => true

/-- Lines appended to the generator's `_tree` list.  Each entry line is
tagged (as ghost data) with the root-relative path of the entry it
renders; the actual Python string is the `text` projection. -/
inductive TLine where
  | head (text : String)
  | entryFile (path : List String) (text : String)
  | entryDir (path : List String) (text : String)
  | closing (text : String)
deriving DecidableEq, Repr

/-- The rendered Python string of a tree line. -/
def TLine.text : TLine → String
  | .head t => t
  | .entryFile _ t => t
  | .entryDir _ t => t
  | .closing t => t

/-- Result of a walk: the lines appended to `self._tree` so far, and the
exception that aborted the walk, if any. -/
structure WalkOut where
  lines : List TLine
  err : Option PyErr
deriving DecidableEq, Repr

/-- Branch connector constants of both generator variants. -/
def ELBOW : String := "└──"

/-- Tee connector. -/
def TEE : String := "├──"

/-- Continuation padding appended to a non-last directory's prefix
(PIPE_PREFIX in the source). -/
def pipePad : String := "│   "

/-- Blank padding appended to a last directory's prefix (SPACE_PREFIX in
the source). -/
def spacePad : String := "    "

/-- Root-relative path string, components joined by `os.sep` = "/": the
value of `str(entry.relative_to(self._root_dir))`. -/
def pathStr (p : List String) : String :=
  String.intercalate "/" p

/-- Python `str.rstrip()`: drop trailing whitespace characters. -/
def pyRstrip (s : String) : String :=
  ⟨(s.data.reverse.dropWhile Char.isWhitespace).reverse⟩

/-- Python `name.startswith('.')`: does the name begin with the
hidden-file marker? -/
def pyStartsWithDot (s : String) : Bool :=
  match s.data with
  | [] => false
  | c :: _ => c = '.'

/-- Python `sorted(entries, key=lambda entry: entry.is_file())`: a stable
sort on a Bool key, i.e. directories first, preserving listing order
within each group. -/
def sortFilesLast (es : List FSEntry) : List FSEntry :=
  es.filter (fun e => e.isDir) ++ es.filter (fun e => !e.isDir)

/-- Options of the `src/generate_tree.py` `_TreeGenerator`.  `ignore` is
`none` when the pattern list is empty (Python list truthiness skips the
filter), otherwise the compiled spec's match predicate on root-relative
path strings. -/
structure SrcCfg where
  dirOnly : Bool
  includeHidden : Bool
  limit : Option Int
  ignore : Option (String → Bool)

/-- `_TreeGenerator._prepare_entries` of src/generate_tree.py: drop hidden
entries unless `include_hidden`, drop entries matched by the compiled
ignore spec when the pattern list is non-empty, then sort files after
directories. -/
def srcPrepare (cfg : SrcCfg) (cur : List String) (cs : List FSEntry) : List FSEntry :=
  let e1 := if cfg.includeHidden then cs
            else cs.filter (fun e => !(pyStartsWithDot e.name))
  let e2 := match cfg.ignore with
            | none => e1
            | some m => e1.filter (fun e => !(m (pathStr (cur ++ [e.name]))))
  sortFilesLast e2

/-- The entry loop of `_TreeGenerator._tree_body` in src/generate_tree.py.
A file entry is rendered unless `dir_only`; a directory entry other than
`__pycache__` is handed to `_add_directory`, which appends the directory
line and then evaluates `depth+1` with `depth` unbound in its scope, so
it raises `NameError` before the recursive call. -/
def srcLoop (cfg : SrcCfg) (cur : List String) (pref : String) :
    List FSEntry → WalkOut
  | [] => ⟨[], none⟩
  | e :: rest =>
    let connector := if rest.isEmpty then ELBOW else TEE
    match e with
    | .dir nm _ _ =>
      if nm = "__pycache__" then srcLoop cfg cur pref rest
      else
        ⟨[.entryDir (cur ++ [nm]) (pref ++ connector ++ " " ++ nm ++ "/")],
         some .nameError⟩
    | .file nm _ =>
      if cfg.dirOnly then srcLoop cfg cur pref rest
      else
        let r := srcLoop cfg cur pref rest
        ⟨.entryFile (cur ++ [nm]) (pref ++ connector ++ " " ++ nm) :: r.lines, r.err⟩

/-- The body of `_TreeGenerator._tree_body` of src/generate_tree.py after
the depth guard: list the directory (an unlistable one raises `OSError`
from `iterdir`), prepare the entries and run the loop. -/
def srcTreeBodyCore (cfg : SrcCfg) (cur : List String) (pref : String)
    (d : FSEntry) : WalkOut :=
  match d with
  | .file _ _ => ⟨[], none⟩
  | .dir _ false _ => ⟨[], some .osError⟩
  | .dir _ true cs => srcLoop cfg cur pref (srcPrepare cfg cur cs)

/-- `_TreeGenerator._tree_body` of src/generate_tree.py: return early when
the depth limit is set and exceeded, otherwise scan the directory. -/
def srcTreeBody (cfg : SrcCfg) (cur : List String) (pref : String)
    (depth : Int) (d : FSEntry) : WalkOut :=
  if (match cfg.limit with
      | none => false
      | some l => depth > l) then ⟨[], none⟩
  else srcTreeBodyCore cfg cur pref d

/-- Names of the methods defined by the `_TreeGenerator` class of
src/generate_tree.py (it defines no `build_tree`). -/
def srcTreeGeneratorMethods : List String :=
  ["__init__", "_tree_head", "_tree_body", "_add_file", "_prepare_entries",
   "_add_directory"]

/-- The output destination of `DirectoryTree.generate`: the default
`sys.stdout` object, or a file path string. -/
inductive OutTarget where
  | stdoutDefault
  | path (p : String)
deriving DecidableEq, Repr

/-- Python truthiness of the `output_file` attribute: `sys.stdout` is
truthy; a path string is truthy unless empty. -/
def OutTarget.truthy : OutTarget → Bool
  | .stdoutDefault => true
  | .path p => p ≠ ""

/-- Result of `DirectoryTree.generate`: the lines written to the
destination, and the exception raised, if any. -/
structure GenOut where
  written : List String
  err : Option PyErr
deriving DecidableEq, Repr

/-- `DirectoryTree.generate` of src/generate_tree.py: its first statement
is `tree = self._generator.build_tree()`, an attribute lookup on a
`_TreeGenerator` instance; the class defines no `build_tree`, so the
lookup raises `AttributeError` before anything is written. -/
def srcGenerate (_cfg : SrcCfg) (_root : FSEntry) (_out : OutTarget) : GenOut :=
  if "build_tree" ∈ srcTreeGeneratorMethods then
    -- unreachable: the class defines no build_tree method
    ⟨[], none⟩
  else ⟨[], some .attributeError⟩

/-- Options of the `src/app/tree_cli/generate_tree.py` `_TreeGenerator`
(this variant has no hidden-file option and no depth limit). -/
structure AppCfg where
  dirOnly : Bool
  ignore : Option (String → Bool)

/-- `_TreeGenerator._prepare_entries` of the app/tree_cli variant: drop
entries matched by the compiled ignore spec when the pattern list is
non-empty; then, in `dir_only` mode keep only directories (without
sorting), otherwise sort files after directories. -/
def appPrepare (cfg : AppCfg) (cur : List String) (cs : List FSEntry) : List FSEntry :=
  let e1 := match cfg.ignore with
            | none => cs
            | some m => cs.filter (fun e => !(m (pathStr (cur ++ [e.name]))))
  if cfg.dirOnly then e1.filter (fun e => e.isDir) else sortFilesLast e1

theorem sizeOf_filter_le (p : FSEntry → Bool) (l : List FSEntry) :
    sizeOf (l.filter p) ≤ sizeOf l := by
  induction l with
  | nil => simp [List.filter]
  | cons x xs ih =>
    simp only [List.filter]
    cases p x <;> simp <;> omega

theorem sizeOf_append (a b : List FSEntry) :
    sizeOf (a ++ b) + 1 = sizeOf a + sizeOf b := by
  induction a with
  | nil => simp; omega
  | cons x xs ih => simp; omega

theorem sizeOf_two_filters (p : FSEntry → Bool) (l : List FSEntry) :
    sizeOf (l.filter p) + sizeOf (l.filter (fun x => !p x)) = sizeOf l + 1 := by
  induction l with
  | nil => simp [List.filter]
  | cons x xs ih =>
    simp only [List.filter]
    cases p x <;> simp_all <;> omega

theorem sizeOf_sortFilesLast (l : List FSEntry) :
    sizeOf (sortFilesLast l) = sizeOf l := by
  unfold sortFilesLast
  have h1 := sizeOf_append (l.filter (fun e => e.isDir)) (l.filter (fun e => !e.isDir))
  have h2 := sizeOf_two_filters (fun e => e.isDir) l
  omega

theorem sizeOf_appPrepare_le (cfg : AppCfg) (cur : List String) (cs : List FSEntry) :
    sizeOf (appPrepare cfg cur cs) ≤ sizeOf cs := by
  unfold appPrepare
  have key : ∀ l : List FSEntry,
      sizeOf (if cfg.dirOnly then l.filter (fun e => e.isDir) else sortFilesLast l)
        ≤ sizeOf l := by
    intro l
    cases cfg.dirOnly with
    | true => simpa using sizeOf_filter_le (fun e => e.isDir) l
    | false => simp [sizeOf_sortFilesLast]
  cases hio : cfg.ignore with
  | none => exact key cs
  | some m => exact le_trans (key _) (sizeOf_filter_le _ _)

mutual

/-- `_TreeGenerator._tree_body` of the app/tree_cli variant: list the
directory (an unlistable one raises `OSError` from `iterdir`), prepare
the entries and loop over them. -/
def appTreeBody (cfg : AppCfg) (cur : List String) (pref : String) (d : FSEntry) : WalkOut :=
  match d with
  | .file _ _ => ⟨[], none⟩
  | .dir _ false _ => ⟨[], some .osError⟩
  | .dir _ true cs => appLoop cfg cur pref (appPrepare cfg cur cs)
termination_by sizeOf d
decreasing_by
  have := sizeOf_appPrepare_le cfg cur cs
  simp_wf
  omega

/-- The entry loop of the app/tree_cli `_tree_body` together with
`_add_file` and `_add_directory`: a file entry gets a line; a directory
entry other than `__pycache__` gets a line, then its body is rendered
with the extended prefix, and finally the extended prefix with trailing
whitespace stripped is appended as a closing line.  An exception from the
recursive call propagates, leaving the closing line and all later
entries unrendered. -/
def appLoop (cfg : AppCfg) (cur : List String) (pref : String) (es : List FSEntry) : WalkOut :=
  match es with
  | [] => ⟨[], none⟩
  | e :: rest =>
    let connector := if rest.isEmpty then ELBOW else TEE
    match e with
    | .file nm _ =>
      let r := appLoop cfg cur pref rest
      ⟨.entryFile (cur ++ [nm]) (pref ++ connector ++ " " ++ nm) :: r.lines, r.err⟩
    | .dir nm listable children =>
      if nm = "__pycache__" then appLoop cfg cur pref rest
      else
        let newPref := pref ++ (if rest.isEmpty then spacePad else pipePad)
        let dline := TLine.entryDir (cur ++ [nm]) (pref ++ connector ++ " " ++ nm ++ "/")
        let sub := appTreeBody cfg (cur ++ [nm]) newPref (.dir nm listable children)
        match sub.err with
        | some e2 => ⟨dline :: sub.lines, some e2⟩
        | none =>
          let r := appLoop cfg cur pref rest
          ⟨dline :: (sub.lines ++ [.closing (pyRstrip newPref)] ++ r.lines), r.err⟩
termination_by sizeOf es
decreasing_by
  all_goals simp_wf <;> omega

end

/-- `_TreeGenerator.build_tree` of the app/tree_cli variant: appends the
head line and then the body to the instance's `_tree` list (`acc` is the
content of `self._tree` when the call starts; it is not reset) and
returns the list.  An exception from the body propagates out of
`build_tree`, with the lines appended so far retained in `self._tree`. -/
def appBuildTree (acc : List TLine) (cfg : AppCfg) (root : FSEntry) : WalkOut :=
  let body := appTreeBody cfg [] "" root
  ⟨acc ++ (TLine.head (root.name ++ "/") :: body.lines), body.err⟩

/-- `DirectoryTree.generate` of the app/tree_cli variant: build the tree
on a fresh generator, then open the destination — the truthiness guard
`open(self._output_file, "w") if self._output_file else sys.stdout`
passes the truthy `sys.stdout` object to `open()`, which raises
`TypeError`; a (non-empty) path string is opened and the lines are
written to it. -/
def appGenerate (cfg : AppCfg) (root : FSEntry) (out : OutTarget) : GenOut :=
  let t := appBuildTree [] cfg root
  match t.err with
  | some e => ⟨[], some e⟩
  | none =>
    if out.truthy then
      match out with
      | .stdoutDefault => ⟨[], some .typeError⟩
      | .path _ => ⟨t.lines.map TLine.text, none⟩
    else ⟨t.lines.map TLine.text, none⟩

mutual

/-- Files yielded by `os.walk(root_dir)` (top-down, default
`onerror=None`, so an unlistable directory contributes nothing): for each
visited directory, its files in listing order, then its subdirectories
recursively, in listing order.  Each file is paired with its content. -/
def osWalkFiles (e : FSEntry) (cur : List String) : List (List String × String) :=
  match e with
  | .file _ _ => []
  | .dir _ false _ => []
  | .dir _ true cs => osWalkTop cs cur ++ osWalkSub cs cur

/-- The `files` component of one `os.walk` step: the file children, in
listing order. -/
def osWalkTop (cs : List FSEntry) (cur : List String) : List (List String × String) :=
  match cs with
  | [] => []
  | .file nm c :: rest => (cur ++ [nm], c) :: osWalkTop rest cur
  | .dir _ _ _ :: rest => osWalkTop rest cur

/-- Descent of `os.walk` into the subdirectory children, in listing
order. -/
def osWalkSub (cs : List FSEntry) (cur : List String) : List (List String × String) :=
  match cs with
  | [] => []
  | .file _ _ :: rest => osWalkSub rest cur
  | .dir nm b children :: rest =>
      osWalkFiles (.dir nm b children) (cur ++ [nm]) ++ osWalkSub rest cur

end

/-- The compiled spec used by `combine_files`: `PathSpec.from_lines` is
always applied, and an empty pattern list compiles to a spec matching
nothing. -/
def matcherOf : Option (String → Bool) → (String → Bool)
  | none => fun _ => false
  | some m => m

/-- The file-selection loop of `combine_files` (src/combine_code.py lines
77-94): walk the root with `os.walk` and write a delimiter block for
every file whose root-relative path the compiled spec does not match. -/
def combineWalkFiles (root : FSEntry) (m : String → Bool) : List (List String × String) :=
  (osWalkFiles root []).filter (fun b => !(m (pathStr b.1)))

/-- Result of `combine_files`: the delimiter blocks written (path and
content), and the exception raised, if any. -/
structure CombineOut where
  blocks : List (List String × String)
  err : Option PyErr
deriving Repr

/-- `combine_files` of src/combine_code.py: after loading the patterns
and compiling the spec it calls `DirectoryTree(root_dir, dir_only=False,
output_file=output_file).generate()` (the src/generate_tree.py variant,
with `include_hidden` and `limit_depth` at their defaults); an exception
there propagates out of `combine_files` before the output file is opened.
Only if that call returned would the `os.walk` loop write the delimiter
blocks. -/
def combineFiles (root : FSEntry) (mo : Option (String → Bool)) : CombineOut :=
  match (srcGenerate ⟨false, false, none, mo⟩ root (.path "combined_code.txt")).err with
  | some e => ⟨[], some e⟩
  | none => ⟨combineWalkFiles root (matcherOf mo), none⟩

/-- State of the ignore file at `root_dir / ignore_file`: absent, readable
with the given text, or present but failing to read (e.g. permission
denied). -/
inductive IgnoreFileState where
  | missing
  | readable (content : String)
  | unreadable
deriving DecidableEq, Repr

/-- Python `str.splitlines()` restricted to "\n" line boundaries: the
list of lines, without a trailing empty line for a trailing newline. -/
def pySplitlines (s : String) : List String :=
  if s = "" then []
  else if s.endsWith "\n" then (s.splitOn "\n").dropLast
  else s.splitOn "\n"

/-- Python `ignore_file_path.is_file()`. -/
def pyIsFile : IgnoreFileState → Bool
  | .missing => false
  | _ => true

/-- Reading the ignore file: returns its text, or raises an `OSError`
(e.g. permission denied) for an unreadable file. -/
def pyReadFile : IgnoreFileState → Except PyErr String
  | .readable c => .ok c
  | _ => .error .osError

/-- Result of `load_ignore_patterns`: either the returned pattern list or
the re-raised exception, together with the number of `logger.error`
calls made. -/
structure LoadOut where
  result : Except PyErr (List String)
  loggedErrors : Nat
deriving Repr

/-- `load_ignore_patterns` of src/utils.py: inside a try block, if the
ignore file is a file, read it and split its lines into patterns;
`except Exception` logs the error and re-raises it; a missing file
yields the initial empty list. -/
def loadIgnorePatterns (st : IgnoreFileState) : LoadOut :=
  if pyIsFile st then
    match pyReadFile st with
    | .ok c => ⟨.ok (pySplitlines c), 0⟩
    | .error e => ⟨.error e, 1⟩
  else ⟨.ok [], 0⟩

/-- Is this tree line a directory entry line? -/
def TLine.isDirLine : TLine → Bool
  | .entryDir _ _ => true
  | _ => false

/-- Is this tree line a closing line? -/
def TLine.isClosingLine : TLine → Bool
  | .closing _ => true
  | _ => false

/-- The ghost path of an entry line (file or directory), if any. -/
def TLine.entryPath? : TLine → Option (List String)
  | .entryFile p _ => some p
  | .entryDir p _ => some p
  | _ => none

/-- The ghost path of a file entry line, if any. -/
def TLine.filePath? : TLine → Option (List String)
  | .entryFile p _ => some p
  | _ => none

/-- Root-relative paths of the entries rendered in a line list. -/
def entryPaths (ls : List TLine) : List (List String) :=
  ls.filterMap TLine.entryPath?

/-- Root-relative paths of the file entries rendered in a line list. -/
def fileEntryPaths (ls : List TLine) : List (List String) :=
  ls.filterMap TLine.filePath?

theorem appTreeBody_file (cfg : AppCfg) (cur : List String) (pref : String)
    (nm c : String) :
    appTreeBody cfg cur pref (.file nm c) = ⟨[], none⟩ := by
  rw [appTreeBody]

theorem appTreeBody_unlistable (cfg : AppCfg) (cur : List String) (pref : String)
    (nm : String) (cs : List FSEntry) :
    appTreeBody cfg cur pref (.dir nm false cs) = ⟨[], some .osError⟩ := by
  rw [appTreeBody]

theorem appTreeBody_dir (cfg : AppCfg) (cur : List String) (pref : String)
    (nm : String) (cs : List FSEntry) :
    appTreeBody cfg cur pref (.dir nm true cs)
      = appLoop cfg cur pref (appPrepare cfg cur cs) := by
  rw [appTreeBody]

theorem appLoop_nil (cfg : AppCfg) (cur : List String) (pref : String) :
    appLoop cfg cur pref [] = ⟨[], none⟩ := by
  rw [appLoop]

theorem appLoop_file (cfg : AppCfg) (cur : List String) (pref : String)
    (nm c : String) (rest : List FSEntry) :
    appLoop cfg cur pref (.file nm c :: rest)
      = ⟨.entryFile (cur ++ [nm])
            (pref ++ (if rest.isEmpty then ELBOW else TEE) ++ " " ++ nm)
            :: (appLoop cfg cur pref rest).lines,
         (appLoop cfg cur pref rest).err⟩ := by
  rw [appLoop]

theorem appLoop_pycache (cfg : AppCfg) (cur : List String) (pref : String)
    (b : Bool) (ch rest : List FSEntry) :
    appLoop cfg cur pref (.dir "__pycache__" b ch :: rest)
      = appLoop cfg cur pref rest := by
  rw [appLoop]
  simp

theorem appLoop_dir (cfg : AppCfg) (cur : List String) (pref : String)
    (nm : String) (b : Bool) (ch rest : List FSEntry)
    (hnm : nm ≠ "__pycache__") :
    appLoop cfg cur pref (.dir nm b ch :: rest)
      = (match (appTreeBody cfg (cur ++ [nm])
              (pref ++ (if rest.isEmpty then spacePad else pipePad))
              (.dir nm b ch)).err with
         | some e2 =>
           ⟨TLine.entryDir (cur ++ [nm])
              (pref ++ (if rest.isEmpty then ELBOW else TEE) ++ " " ++ nm ++ "/")
              :: (appTreeBody cfg (cur ++ [nm])
                    (pref ++ (if rest.isEmpty then spacePad else pipePad))
                    (.dir nm b ch)).lines,
            some e2⟩
         | none =>
           ⟨TLine.entryDir (cur ++ [nm])
              (pref ++ (if rest.isEmpty then ELBOW else TEE) ++ " " ++ nm ++ "/")
              :: ((appTreeBody cfg (cur ++ [nm])
                     (pref ++ (if rest.isEmpty then spacePad else pipePad))
                     (.dir nm b ch)).lines
                  ++ [.closing (pyRstrip
                        (pref ++ (if rest.isEmpty then spacePad else pipePad)))]
                  ++ (appLoop cfg cur pref rest).lines),
            (appLoop cfg cur pref rest).err⟩) := by
  rw [appLoop]
  simp only [if_neg hnm]

theorem mem_sortFilesLast {e : FSEntry} {l : List FSEntry}
    (h : e ∈ sortFilesLast l) : e ∈ l := by
  unfold sortFilesLast at h
  rcases List.mem_append.mp h with h1 | h1 <;> exact (List.mem_filter.mp h1).1

theorem mem_hiddenFilter {cfg : SrcCfg} {cs : List FSEntry} {e : FSEntry}
    (h : e ∈ (if cfg.includeHidden then cs
              else cs.filter (fun e => !(pyStartsWithDot e.name)))) : e ∈ cs := by
  split at h
  · exact h
  · exact (List.mem_filter.mp h).1

theorem mem_srcPrepare {cfg : SrcCfg} {cur : List String} {cs : List FSEntry}
    {e : FSEntry} (h : e ∈ srcPrepare cfg cur cs) :
    e ∈ cs ∧ ∀ m, cfg.ignore = some m → m (pathStr (cur ++ [e.name])) = false := by
  unfold srcPrepare at h
  have h2 := mem_sortFilesLast h
  cases hio : cfg.ignore with
  | none =>
    rw [hio] at h2
    exact ⟨mem_hiddenFilter h2, fun m hm => nomatch hm⟩
  | some m =>
    rw [hio] at h2
    have h3 := List.mem_filter.mp h2
    refine ⟨mem_hiddenFilter h3.1, fun m2 hm2 => ?_⟩
    cases hm2
    simpa using h3.2

theorem srcLoop_err_of_dirEntry (cfg : SrcCfg) (cur : List String) (pref : String)
    (es : List FSEntry)
    (h : ∃ e ∈ es, e.isDir = true ∧ e.name ≠ "__pycache__") :
    (srcLoop cfg cur pref es).err = some .nameError := by
  induction es with
  | nil => simp at h
  | cons e rest ih =>
    obtain ⟨w, hw, hwd, hwn⟩ := h
    rw [List.mem_cons] at hw
    cases e with
    | file nm c =>
      have hw2 : w ∈ rest := by
        rcases hw with h1 | h1
        · subst h1; simp [FSEntry.isDir] at hwd
        · exact h1
      have hrec := ih ⟨w, hw2, hwd, hwn⟩
      rw [srcLoop]
      cases cfg.dirOnly <;> simpa using hrec
    | dir nm b ch =>
      rw [srcLoop]
      by_cases hnm : nm = "__pycache__"
      · subst hnm
        have hw2 : w ∈ rest := by
          rcases hw with h1 | h1
          · subst h1; simp [FSEntry.name] at hwn
          · exact h1
        simpa using ih ⟨w, hw2, hwd, hwn⟩
      · simp [hnm]

theorem entryPaths_srcLoop_sub (cfg : SrcCfg) (cur : List String) (pref : String)
    (es : List FSEntry) (p : List String)
    (hp : p ∈ entryPaths (srcLoop cfg cur pref es).lines) :
    ∃ e ∈ es, p = cur ++ [e.name] := by
  induction es with
  | nil => simp [srcLoop, entryPaths] at hp
  | cons e rest ih =>
    cases e with
    | file nm c =>
      rw [srcLoop] at hp
      split at hp
      · obtain ⟨w, hw, hpe⟩ := ih hp
        exact ⟨w, List.mem_cons_of_mem _ hw, hpe⟩
      · simp only [entryPaths, List.filterMap_cons, TLine.entryPath?,
          List.mem_cons] at hp
        rcases hp with h1 | h1
        · exact ⟨.file nm c, List.mem_cons_self _ _, h1⟩
        · obtain ⟨w, hw, hpe⟩ := ih h1
          exact ⟨w, List.mem_cons_of_mem _ hw, hpe⟩
    | dir nm b ch =>
      rw [srcLoop] at hp
      by_cases hnm : nm = "__pycache__"
      · subst hnm
        simp only [if_pos rfl] at hp
        obtain ⟨w, hw, hpe⟩ := ih hp
        exact ⟨w, List.mem_cons_of_mem _ hw, hpe⟩
      · simp only [if_neg hnm, entryPaths, List.filterMap_cons,
          TLine.entryPath?, List.filterMap_nil, List.mem_cons,
          List.not_mem_nil, or_false] at hp
        exact ⟨.dir nm b ch, List.mem_cons_self _ _, hp⟩

/-- C3: For every directory that contains at least one subdirectory entry
surviving the hidden/ignore filters and not named `__pycache__`, whenever
the depth guard lets `_tree_body` of the src/generate_tree.py variant
run, it raises a `NameError`: `_add_directory` passes `depth=depth+1`
with `depth` unbound in its scope. -/
theorem srcTreeBody_nameError (cfg : SrcCfg) (cur : List String) (pref : String)
    (depth : Int) (nm : String) (cs : List FSEntry)
    (hguard : ∀ l, cfg.limit = some l → depth ≤ l)
    (hdir : ∃ e ∈ srcPrepare cfg cur cs, e.isDir = true ∧ e.name ≠ "__pycache__") :
    (srcTreeBody cfg cur pref depth (.dir nm true cs)).err = some .nameError := by
  unfold srcTreeBody
  cases hl : cfg.limit with
  | none =>
    simpa [srcTreeBodyCore] using srcLoop_err_of_dirEntry cfg cur pref _ hdir
  | some l =>
    have hle : ¬ (depth > l) := not_lt.mpr (hguard l hl)
    simpa [srcTreeBodyCore, hle] using srcLoop_err_of_dirEntry cfg cur pref _ hdir

/-- C3 witness: the theorem applied to a concrete directory with one
surviving subdirectory. -/
theorem srcTreeBody_nameError_witness :
    (srcTreeBody ⟨false, true, none, none⟩ [] "" 0
        (.dir "root" true [.dir "sub" true []])).err = some .nameError :=
  srcTreeBody_nameError ⟨false, true, none, none⟩ [] "" 0 "root"
    [.dir "sub" true []] (fun l h => nomatch h)
    ⟨.dir "sub" true [], by simp [srcPrepare, sortFilesLast, FSEntry.isDir],
     rfl, by decide⟩

/-- C5: an entry whose root-relative path matches the compiled ignore
spec appears neither as an entry line in the tree walk of the
src/generate_tree.py variant nor as a delimiter block in the combiner's
file-selection loop. -/
theorem ignored_never_appears (cfg : SrcCfg) (m : String → Bool) (root : FSEntry)
    (p : List String) (c : String)
    (him : cfg.ignore = some m) (hm : m (pathStr p) = true) :
    p ∉ entryPaths (srcTreeBody cfg [] "" 0 root).lines
    ∧ (p, c) ∉ combineWalkFiles root m := by
  constructor
  · intro hp
    unfold srcTreeBody at hp
    by_cases hg : (match cfg.limit with
                   | none => false
                   | some l => decide ((0:Int) > l)) = true
    · rw [if_pos hg] at hp
      simp [entryPaths] at hp
    · rw [if_neg hg] at hp
      unfold srcTreeBodyCore at hp
      cases root with
      | file nm c2 => simp [entryPaths] at hp
      | dir nm listable cs =>
        cases listable with
        | false => simp [entryPaths] at hp
        | true =>
          obtain ⟨e, he, hpe⟩ := entryPaths_srcLoop_sub cfg [] "" _ p hp
          have hfil := (mem_srcPrepare he).2 m him
          rw [← hpe] at hfil
          rw [hfil] at hm
          cases hm
  · intro hb
    unfold combineWalkFiles at hb
    have := (List.mem_filter.mp hb).2
    simp [hm] at this

/-- C5 witness: the theorem applied to a concrete ignored file, which is
absent from both outputs. -/
theorem ignored_never_appears_witness :
    ["sec.txt"] ∉ entryPaths (srcTreeBody
        ⟨false, true, none, some (fun s => s == "sec.txt")⟩ [] "" 0
        (.dir "r" true [.file "sec.txt" "s", .file "pub.txt" "p"])).lines
    ∧ (["sec.txt"], "s") ∉ combineWalkFiles
        (.dir "r" true [.file "sec.txt" "s", .file "pub.txt" "p"])
        (fun s => s == "sec.txt") :=
  ignored_never_appears ⟨false, true, none, some (fun s => s == "sec.txt")⟩
    (fun s => s == "sec.txt")
    (.dir "r" true [.file "sec.txt" "s", .file "pub.txt" "p"])
    ["sec.txt"] "s" rfl (by decide)

/-- C2: For every root directory and every combination of options, calling
`DirectoryTree.generate` on the src/generate_tree.py variant raises an
`AttributeError` before emitting any output, because the `_TreeGenerator`
class it delegates to defines no `build_tree` method. -/
theorem srcGenerate_always_attributeError (cfg : SrcCfg) (root : FSEntry)
    (out : OutTarget) :
    srcGenerate cfg root out = ⟨[], some .attributeError⟩ := by
  simp [srcGenerate, srcTreeGeneratorMethods]

/-- C4 (code bug): with `maxDepth = 0` and a root containing one
subdirectory `sub` holding a file, the spec says the output is the head
line, the line `└── sub/` rendered with no children, and a closing line;
the code instead appends the `sub/` line and then raises `NameError`
(from the unbound `depth` in `_add_directory`), emitting no closing
line. -/
theorem srcTreeBody_depthZero_nameError :
    srcTreeBody ⟨false, false, some 0, none⟩ [] "" 0
        (.dir "proj" true [.dir "sub" true [.file "f.txt" "x"]])
      = ⟨[.entryDir ["sub"] "└── sub/"], some .nameError⟩ := by
  decide

/-- C7: `load_ignore_patterns` returns the ordered list of lines of the
ignore file when it exists, the empty list when it does not exist, and
for any other I/O error during the read it logs the error and re-raises
the exception. -/
theorem loadIgnorePatterns_contract :
    (∀ c, loadIgnorePatterns (.readable c) = ⟨.ok (pySplitlines c), 0⟩)
    ∧ loadIgnorePatterns .missing = ⟨.ok [], 0⟩
    ∧ loadIgnorePatterns .unreadable = ⟨.error .osError, 1⟩ := by
  exact ⟨fun c => rfl, rfl, rfl⟩

theorem filePaths_srcLoop_sub (cfg : SrcCfg) (cur : List String) (pref : String)
    (es : List FSEntry) (p : List String)
    (hp : p ∈ fileEntryPaths (srcLoop cfg cur pref es).lines) :
    ∃ nm c, FSEntry.file nm c ∈ es ∧ p = cur ++ [nm] := by
  induction es with
  | nil => simp [srcLoop, fileEntryPaths] at hp
  | cons e rest ih =>
    cases e with
    | file nm c =>
      rw [srcLoop] at hp
      split at hp
      · obtain ⟨nm2, c2, hmem, hpe⟩ := ih hp
        exact ⟨nm2, c2, List.mem_cons_of_mem _ hmem, hpe⟩
      · simp only [fileEntryPaths, List.filterMap_cons, TLine.filePath?,
          List.mem_cons] at hp
        rcases hp with h1 | h1
        · exact ⟨nm, c, List.mem_cons_self _ _, h1⟩
        · obtain ⟨nm2, c2, hmem, hpe⟩ := ih h1
          exact ⟨nm2, c2, List.mem_cons_of_mem _ hmem, hpe⟩
    | dir nm b ch =>
      rw [srcLoop] at hp
      by_cases hnm : nm = "__pycache__"
      · rw [if_pos hnm] at hp
        obtain ⟨nm2, c2, hmem, hpe⟩ := ih hp
        exact ⟨nm2, c2, List.mem_cons_of_mem _ hmem, hpe⟩
      · rw [if_neg hnm] at hp
        simp [fileEntryPaths, TLine.filePath?] at hp

theorem mem_osWalkTop {nm c : String} {cs : List FSEntry} (cur : List String)
    (h : FSEntry.file nm c ∈ cs) : (cur ++ [nm], c) ∈ osWalkTop cs cur := by
  induction cs with
  | nil => simp at h
  | cons e rest ih =>
    rw [List.mem_cons] at h
    cases e with
    | file nm2 c2 =>
      rw [osWalkTop]
      rcases h with h1 | h1
      · injection h1 with hnm hc
        subst hnm
        subst hc
        exact List.mem_cons_self _ _
      · exact List.mem_cons_of_mem _ (ih h1)
    | dir nm2 b2 ch2 =>
      rw [osWalkTop]
      rcases h with h1 | h1
      · cases h1
      · exact ih h1

/-- C1 (amended): every file the src/generate_tree.py tree engine emits as
a file line under default options is also selected by the combiner's
`os.walk` loop with the same compiled spec — the loop's selection is a
superset of the tree engine's selection (the converse fails: the
combiner walks hidden files and `__pycache__` contents that the tree
filters out, and `combine_files` as composed aborts before writing
anything at all). -/
theorem combine_walk_superset (mo : Option (String → Bool)) (root : FSEntry)
    (p : List String)
    (hp : p ∈ fileEntryPaths
        (srcTreeBody ⟨false, false, none, mo⟩ [] "" 0 root).lines) :
    p ∈ (combineWalkFiles root (matcherOf mo)).map Prod.fst := by
  simp only [srcTreeBody, srcTreeBodyCore] at hp
  cases root with
  | file nm c => simp [fileEntryPaths] at hp
  | dir nm listable cs =>
    cases listable with
    | false => simp [fileEntryPaths] at hp
    | true =>
      obtain ⟨nm2, c2, hmem, hpe⟩ := filePaths_srcLoop_sub _ [] "" _ p hp
      have hcs : FSEntry.file nm2 c2 ∈ cs := (mem_srcPrepare hmem).1
      have hum : matcherOf mo (pathStr [nm2]) = false := by
        cases mo with
        | none => rfl
        | some m =>
          have := (mem_srcPrepare hmem).2 m rfl
          simpa [FSEntry.name, matcherOf] using this
      have hwalk : ([nm2], c2) ∈ osWalkFiles (.dir nm true cs) [] := by
        rw [osWalkFiles]
        exact List.mem_append_left _ (by simpa using mem_osWalkTop [] hcs)
      have hfil : ([nm2], c2) ∈ combineWalkFiles (.dir nm true cs) (matcherOf mo) := by
        unfold combineWalkFiles
        exact List.mem_filter.mpr ⟨hwalk, by simp [hum]⟩
      have hpe2 : p = [nm2] := by simpa using hpe
      rw [hpe2]
      exact List.mem_map.mpr ⟨([nm2], c2), hfil, rfl⟩

/-- C1 witness: the amended superset theorem applied to a concrete root
with one file selected by both walks. -/
theorem combine_walk_superset_witness :
    ["a.py"] ∈ (combineWalkFiles (.dir "s" true [.file "a.py" "code"])
        (matcherOf none)).map Prod.fst :=
  combine_walk_superset none (.dir "s" true [.file "a.py" "code"]) ["a.py"]
    (by decide)

/-- C1 counterexample: on a root holding `.env` and `a.py` with no ignore
patterns, the tree engine's default-option file lines are exactly
`a.py`, but `combine_files` aborts with `AttributeError` and writes no
delimiter block at all, and even its `os.walk` selection loop on its own
selects both `.env` and `a.py`; under either reading the two selections
differ. -/
theorem combine_not_equiv_tree_concrete :
    fileEntryPaths (srcTreeBody ⟨false, false, none, none⟩ [] "" 0
        (.dir "r" true [.file ".env" "E", .file "a.py" "A"])).lines = [["a.py"]]
    ∧ (combineFiles (.dir "r" true [.file ".env" "E", .file "a.py" "A"]) none).blocks
        = []
    ∧ (combineFiles (.dir "r" true [.file ".env" "E", .file "a.py" "A"]) none).err
        = some .attributeError
    ∧ combineWalkFiles (.dir "r" true [.file ".env" "E", .file "a.py" "A"])
        (matcherOf none) = [([".env"], "E"), (["a.py"], "A")]
    ∧ ([["a.py"]] : List (List String)) ≠ []
    ∧ (combineWalkFiles (.dir "r" true [.file ".env" "E", .file "a.py" "A"])
        (matcherOf none)).map Prod.fst ≠ [["a.py"]] := by
  refine ⟨by decide, by decide, by decide, by decide, by decide, by decide⟩

theorem srcLoop_ok_counts (cfg : SrcCfg) (cur : List String) (pref : String)
    (es : List FSEntry) (h : (srcLoop cfg cur pref es).err = none) :
    (srcLoop cfg cur pref es).lines.countP TLine.isClosingLine = 0
    ∧ (srcLoop cfg cur pref es).lines.countP TLine.isDirLine = 0 := by
  induction es with
  | nil => simp [srcLoop]
  | cons e rest ih =>
    cases e with
    | file nm c =>
      cases hdo : cfg.dirOnly with
      | true =>
        rw [srcLoop, hdo] at h ⊢
        simp only [if_pos] at h ⊢
        exact ih h
      | false =>
        rw [srcLoop, hdo] at h ⊢
        simp only [Bool.false_eq_true, if_false] at h ⊢
        have := ih h
        simp [List.countP_cons, TLine.isClosingLine, TLine.isDirLine, this.1, this.2]
    | dir nm b ch =>
      rw [srcLoop] at h ⊢
      by_cases hnm : nm = "__pycache__"
      · simp only [if_pos hnm] at h ⊢
        exact ih h
      · simp only [if_neg hnm] at h
        cases h

theorem srcCore_counts (cfg : SrcCfg) (cur : List String) (pref : String)
    (d : FSEntry) (h : (srcTreeBodyCore cfg cur pref d).err = none) :
    (srcTreeBodyCore cfg cur pref d).lines.countP TLine.isClosingLine = 0
    ∧ (srcTreeBodyCore cfg cur pref d).lines.countP TLine.isDirLine = 0 := by
  cases d with
  | file nm c => simp [srcTreeBodyCore]
  | dir nm b cs =>
    cases b with
    | false => simp [srcTreeBodyCore] at h
    | true =>
      have := srcLoop_ok_counts cfg cur pref (srcPrepare cfg cur cs)
        (by simpa [srcTreeBodyCore] using h)
      simpa [srcTreeBodyCore] using this

theorem app_counts_aux : ∀ n : Nat,
    (∀ (cfg : AppCfg) (cur : List String) (pref : String) (d : FSEntry),
       sizeOf d < n → (appTreeBody cfg cur pref d).err = none →
       (appTreeBody cfg cur pref d).lines.countP TLine.isClosingLine
         = (appTreeBody cfg cur pref d).lines.countP TLine.isDirLine)
    ∧ (∀ (cfg : AppCfg) (cur : List String) (pref : String) (es : List FSEntry),
       sizeOf es < n → (appLoop cfg cur pref es).err = none →
       (appLoop cfg cur pref es).lines.countP TLine.isClosingLine
         = (appLoop cfg cur pref es).lines.countP TLine.isDirLine) := by
  intro n
  induction n using Nat.strong_induction_on with
  | _ n ih =>
    constructor
    · intro cfg cur pref d hsz herr
      cases d with
      | file nm c => simp [appTreeBody_file]
      | dir nm listable cs =>
        cases listable with
        | false => rw [appTreeBody_unlistable] at herr; cases herr
        | true =>
          rw [appTreeBody_dir] at herr ⊢
          have hps : sizeOf (appPrepare cfg cur cs) < sizeOf (FSEntry.dir nm true cs) := by
            have := sizeOf_appPrepare_le cfg cur cs
            simp
            omega
          exact (ih _ hsz).2 cfg cur pref _ hps herr
    · intro cfg cur pref es hsz herr
      cases es with
      | nil => simp [appLoop_nil]
      | cons e rest =>
        have hsze : sizeOf e < sizeOf (e :: rest) := by
          simp only [List.cons.sizeOf_spec]
          omega
        have hszr : sizeOf rest < sizeOf (e :: rest) := by
          simp only [List.cons.sizeOf_spec]
          omega
        cases e with
        | file nm c =>
          rw [appLoop_file] at herr ⊢
          simp only at herr
          have := (ih _ hsz).2 cfg cur pref rest hszr herr
          simp [List.countP_cons, TLine.isClosingLine, TLine.isDirLine, this]
        | dir nm listable ch =>
          by_cases hnm : nm = "__pycache__"
          · subst hnm
            rw [appLoop_pycache] at herr ⊢
            exact (ih _ hsz).2 cfg cur pref rest hszr herr
          · rw [appLoop_dir cfg cur pref nm listable ch rest hnm] at herr ⊢
            cases hsub : (appTreeBody cfg (cur ++ [nm])
                (pref ++ (if rest.isEmpty then spacePad else pipePad))
                (.dir nm listable ch)).err with
            | some e2 =>
              rw [hsub] at herr
              simp at herr
            | none =>
              rw [hsub] at herr
              dsimp only at herr ⊢
              have h1 := (ih _ hsz).1 cfg (cur ++ [nm])
                (pref ++ (if rest.isEmpty then spacePad else pipePad))
                (.dir nm listable ch) hsze hsub
              have h2 := (ih _ hsz).2 cfg cur pref rest hszr herr
              simp [List.countP_cons, List.countP_append,
                TLine.isClosingLine, TLine.isDirLine, h1, h2]
              omega

/-- C6: in every completed tree output (a walk that raised no exception),
the number of closing lines emitted equals the number of directory lines
emitted: proved for the app/tree_cli variant (where every rendered
directory gets its closing line) and for the src/generate_tree.py
variant (where a completed walk contains no directory lines at all,
because rendering a directory always raises `NameError`). -/
theorem closing_lines_balance :
    (∀ (cfg : AppCfg) (root : FSEntry),
        (appBuildTree [] cfg root).err = none →
        (appBuildTree [] cfg root).lines.countP TLine.isClosingLine
          = (appBuildTree [] cfg root).lines.countP TLine.isDirLine)
    ∧ (∀ (cfg : SrcCfg) (cur : List String) (pref : String) (depth : Int)
          (d : FSEntry),
        (srcTreeBody cfg cur pref depth d).err = none →
        (srcTreeBody cfg cur pref depth d).lines.countP TLine.isClosingLine
          = (srcTreeBody cfg cur pref depth d).lines.countP TLine.isDirLine) := by
  constructor
  · intro cfg root herr
    have herr2 : (appTreeBody cfg [] "" root).err = none := by
      simpa [appBuildTree] using herr
    have := (app_counts_aux (sizeOf root + 1)).1 cfg [] "" root
      (Nat.lt_succ_self _) herr2
    simp [appBuildTree, List.countP_cons, TLine.isClosingLine, TLine.isDirLine,
      this]
  · intro cfg cur pref depth d herr
    by_cases hg : (match cfg.limit with
                   | none => false
                   | some l => decide (depth > l)) = true
    · have he : srcTreeBody cfg cur pref depth d = ⟨[], none⟩ := by
        unfold srcTreeBody
        rw [if_pos hg]
      rw [he]
      simp
    · have he : srcTreeBody cfg cur pref depth d = srcTreeBodyCore cfg cur pref d := by
        unfold srcTreeBody
        rw [if_neg hg]
      rw [he] at herr ⊢
      have := srcCore_counts cfg cur pref d herr
      simp [this.1, this.2]

/-- C6 witness: the theorem applied at concrete completing inputs: an
app/tree_cli walk with one directory (one directory line, one closing
line) and a src walk with one file (zero of each). -/
theorem closing_lines_balance_witness :
    ((appBuildTree [] ⟨false, none⟩
        (.dir "t" true [.dir "d1" true [], .file "g.txt" "g"])).err = none
     ∧ (appBuildTree [] ⟨false, none⟩
        (.dir "t" true [.dir "d1" true [], .file "g.txt" "g"])).lines.countP
          TLine.isClosingLine
       = (appBuildTree [] ⟨false, none⟩
        (.dir "t" true [.dir "d1" true [], .file "g.txt" "g"])).lines.countP
          TLine.isDirLine)
    ∧ ((srcTreeBody ⟨false, false, none, none⟩ [] "" 0
          (.dir "t" true [.file "g.txt" "g"])).err = none
       ∧ (srcTreeBody ⟨false, false, none, none⟩ [] "" 0
          (.dir "t" true [.file "g.txt" "g"])).lines.countP TLine.isClosingLine
         = (srcTreeBody ⟨false, false, none, none⟩ [] "" 0
          (.dir "t" true [.file "g.txt" "g"])).lines.countP TLine.isDirLine) := by
  have happ : (appBuildTree [] ⟨false, none⟩
      (.dir "t" true [.dir "d1" true [], .file "g.txt" "g"])).err = none := by
    simp [appBuildTree, appTreeBody, appLoop, appPrepare, sortFilesLast,
      List.filter, FSEntry.isDir, FSEntry.name]
  have hsrc : (srcTreeBody ⟨false, false, none, none⟩ [] "" 0
      (.dir "t" true [.file "g.txt" "g"])).err = none := by decide
  exact ⟨⟨happ, closing_lines_balance.1 ⟨false, none⟩ _ happ⟩,
    ⟨hsrc, closing_lines_balance.2 ⟨false, false, none, none⟩ [] "" 0 _ hsrc⟩⟩

/-- C8 counterexample: on a root containing an unlistable directory `bad`
and a file `ok.txt`, the walk of the app/tree_cli variant aborts with the
`OSError` (it unwinds past the walk) and the sibling file is never
rendered, contradicting the claimed skip-and-continue behaviour. -/
theorem appBuildTree_listingError_aborts_concrete :
    (appBuildTree [] ⟨false, none⟩
        (.dir "r" true [.dir "bad" false [], .file "ok.txt" "y"])).err
      = some .osError
    ∧ fileEntryPaths (appBuildTree [] ⟨false, none⟩
        (.dir "r" true [.dir "bad" false [], .file "ok.txt" "y"])).lines = [] := by
  constructor <;>
    simp [appBuildTree, appTreeBody, appLoop, appPrepare, sortFilesLast,
      List.filter, FSEntry.isDir, FSEntry.name, pathStr, ELBOW, TEE, pipePad,
      spacePad, pyRstrip, fileEntryPaths, TLine.filePath?]

/-- C8 (amended): an I/O error while listing a directory's entries is not
caught by either variant: `_tree_body` on an unlistable directory
returns the `OSError`, which propagates and aborts the walk (in the src
variant, whenever the depth guard lets the body run). -/
theorem treeBody_listingError_propagates (cfg : AppCfg) (scfg : SrcCfg)
    (cur : List String) (pref : String) (depth : Int) (nm : String)
    (cs : List FSEntry) (hlim : scfg.limit = none) :
    appTreeBody cfg cur pref (.dir nm false cs) = ⟨[], some .osError⟩
    ∧ srcTreeBody scfg cur pref depth (.dir nm false cs) = ⟨[], some .osError⟩ := by
  refine ⟨appTreeBody_unlistable cfg cur pref nm cs, ?_⟩
  simp [srcTreeBody, srcTreeBodyCore, hlim]

/-- C8 witness: the amended theorem applied at a concrete unlistable
directory. -/
theorem treeBody_listingError_propagates_witness :
    appTreeBody ⟨false, none⟩ [] "" (.dir "locked" false []) = ⟨[], some .osError⟩
    ∧ srcTreeBody ⟨false, false, none, none⟩ [] "" 0 (.dir "locked" false [])
      = ⟨[], some .osError⟩ :=
  treeBody_listingError_propagates ⟨false, none⟩ ⟨false, false, none, none⟩
    [] "" 0 "locked" [] rfl

/-- C9 counterexample: on a concrete root, a second `build_tree` call on
the same generator (whose `_tree` still holds the first result) does not
return the same lines as the first call. -/
theorem appBuildTree_second_call_differs :
    (appBuildTree
        (appBuildTree [] ⟨false, none⟩ (.dir "p" true [.file "a.txt" "z"])).lines
        ⟨false, none⟩ (.dir "p" true [.file "a.txt" "z"])).lines
      ≠ (appBuildTree [] ⟨false, none⟩ (.dir "p" true [.file "a.txt" "z"])).lines := by
  simp [appBuildTree, appTreeBody, appLoop, appPrepare, sortFilesLast,
    List.filter, FSEntry.isDir, FSEntry.name, pathStr, ELBOW, TEE, pipePad,
    spacePad, pyRstrip]

/-- C9 (amended): `build_tree` appends to the generator's `_tree` without
resetting it, so a call starting from state `acc` returns `acc` followed
by a fresh copy of the whole output; two runs on fresh generators (empty
state) therefore yield identical, deterministic output, but a second
call on the same generator returns the first result with a second copy
appended rather than the same list. -/
theorem appBuildTree_state_law (acc : List TLine) (cfg : AppCfg) (root : FSEntry) :
    (appBuildTree acc cfg root).lines = acc ++ (appBuildTree [] cfg root).lines
    ∧ (appBuildTree acc cfg root).err = (appBuildTree [] cfg root).err := by
  simp [appBuildTree]

/-- C10 counterexample: on the src/generate_tree.py variant with the
default `sys.stdout` destination, `generate` raises `AttributeError`
(there is no `build_tree` method), not the claimed `TypeError`. -/
theorem srcGenerate_stdout_not_typeError :
    srcGenerate ⟨false, false, none, none⟩ (.dir "q" true []) .stdoutDefault
      = ⟨[], some .attributeError⟩
    ∧ PyErr.attributeError ≠ PyErr.typeError := by
  exact ⟨by decide, by decide⟩

/-- C10 (amended): with the default `sys.stdout` destination the
documented print-to-console path is unreachable in the app/tree_cli
variant: whenever the tree build itself succeeds, `generate` passes the
truthy `sys.stdout` object to `open()` and raises `TypeError` with
nothing written; the src/generate_tree.py variant fails even earlier
with `AttributeError`. -/
theorem appGenerate_stdout_typeError (cfg : AppCfg) (root : FSEntry)
    (h : (appBuildTree [] cfg root).err = none) :
    appGenerate cfg root .stdoutDefault = ⟨[], some .typeError⟩ := by
  simp [appGenerate, h, OutTarget.truthy]

/-- C10 witness: the amended theorem applied at a concrete root whose
build succeeds. -/
theorem appGenerate_stdout_typeError_witness :
    appGenerate ⟨false, none⟩ (.dir "w" true []) .stdoutDefault
      = ⟨[], some .typeError⟩ :=
  appGenerate_stdout_typeError ⟨false, none⟩ (.dir "w" true [])
    (by simp [appBuildTree, appTreeBody, appLoop, appPrepare, sortFilesLast,
      List.filter, FSEntry.isDir])

end TreeCli
